import Mathlib

/-!
Shallow embedding of the `gin_tonic` user-service core (Rust, gRPC + sqlx/Postgres).

The embedding covers the three layers the claims are about:

* the storage adapter `UserRepository` (src/repositories/user_repository.rs),
  whose queries run against the `users` table; the table is modelled as the
  id-ordered sequence of its rows (`List User`), the primary-key uniqueness
  and ordering invariant being `SortedIds`;
* the orchestrator `UserUsecase` (src/usecases/user_usecase.rs), whose methods
  take the repository outcome as input (the repository call is the only
  effect, so each method is a pure function of that outcome), and whose
  streaming export task is modelled as a fuel-indexed event-trace function
  `exportLoop`;
* the service facade `UserServer` (src/servers/user_server.rs), mapping
  orchestrator errors to gRPC statuses.

Rust `i32` identifiers are embedded as `Int` (no claim involves overflow);
offsets and limits are embedded as `Nat`, matching the spec's numeric
semantics (non-negative) and the only values the core ever passes.
-/

/-- Entity `User` (src/entities/users.rs): id is `i32` in the source. -/
structure User where
  id : Int
  name : String
  surname : String
deriving DecidableEq, Repr

/-- Error taxonomy (src/lib.rs): `NotFound` and `Internal(cause)`; the boxed
dynamic error is embedded as its display string. -/
inductive Error where
  | NotFound : Error
  | Internal : String → Error
deriving DecidableEq, Repr

/-- Wire-level user message `crate::grpc::User`. -/
structure grpc.User where
  id : Int
  name : String
  surname : String
deriving DecidableEq, Repr

/-- Wire response for CreateUser: `user` is an optional message field. -/
structure CreateUserResponse where
  user : Option grpc.User
deriving DecidableEq, Repr

/-- Wire response for GetUserById. -/
structure GetUserByIdResponse where
  user : Option grpc.User
deriving DecidableEq, Repr

/-- Wire response for GetUserByName. -/
structure GetUserByNameResponse where
  user : Option grpc.User
deriving DecidableEq, Repr

/-- Wire response for UpdateUser. -/
structure UpdateUserResponse where
  user : Option grpc.User
deriving DecidableEq, Repr

/-- Wire response for GetUsers. -/
structure GetUsersResponse where
  users : List grpc.User
  count : Int
deriving DecidableEq, Repr

/-- Wire response for DeleteUser (empty message). -/
structure DeleteUserResponse where
deriving DecidableEq, Repr

/-- Wire response for one StreamUsers stream element. -/
structure StreamUsersResponse where
  user : Option grpc.User
deriving DecidableEq, Repr

/-- gRPC status codes the facade produces (`tonic::Status` constructors used
by src/servers/user_server.rs: `Status::not_found`, `Status::internal`). -/
inductive StatusCode where
  | notFound : StatusCode
  | internal : StatusCode
deriving DecidableEq, Repr

/-- A `tonic::Status`: code plus human-readable message. -/
structure Status where
  code : StatusCode
  message : String
deriving DecidableEq, Repr

/-- Rust `Status::not_found(msg)`. -/
def Status.not_found (m : String) : Status := ⟨StatusCode.notFound, m⟩

/-- Rust `Status::internal(msg)`. -/
def Status.internal (m : String) : Status := ⟨StatusCode.internal, m⟩

/-- The `{:?}` debug rendering of `crate::Error` used in facade messages. -/
def debugError : Error → String
  | Error.NotFound => "NotFound"
  | Error.Internal c => "Internal(" ++ c ++ ")"

/-- Table invariant: rows are listed in strictly ascending id order. This is
the primary-key uniqueness plus the id ordering under which the adapter's
`ORDER BY id` queries read the rows; the model represents the table content
as that ordered sequence. -/
def SortedIds (rows : List User) : Prop :=
  List.Pairwise (fun a b => a.id < b.id) rows

instance (rows : List User) : Decidable (SortedIds rows) :=
  List.instDecidablePairwise rows

instance {ε α : Type} [DecidableEq ε] [DecidableEq α] : DecidableEq (Except ε α) :=
  fun a b =>
    match a, b with
    | Except.ok x, Except.ok y => decidable_of_iff (x = y) (by simp)
    | Except.ok _, Except.error _ => Decidable.isFalse (by simp)
    | Except.error _, Except.ok _ => Decidable.isFalse (by simp)
    | Except.error e, Except.error f => decidable_of_iff (e = f) (by simp)

/-- Batch size constant of `UserUsecase::send_users` (`const BATCH_SIZE: i32 = 100`). -/
def BATCH_SIZE : Nat := 100

/-- Adapter method `UserRepository::get_users_batch` (src/repositories/user_repository.rs):
`SELECT id, name, surname FROM users ORDER BY id LIMIT limit OFFSET offset`.
On the id-ordered row sequence this is drop-then-take; an offset beyond the
end yields the empty result set (not an error). -/
def get_users_batch (rows : List User) (offset limit : Nat) : List User :=
  (rows.drop offset).take limit

/-- Adapter method `UserRepository::update_user`:
`UPDATE users SET name = COALESCE($1, name), surname = COALESCE($2, surname)
WHERE id = $3 RETURNING id, name, surname` with `fetch_optional`. Returns the
updated row when the id matches (`None` otherwise) together with the
post-statement table. -/
def update_user (rows : List User) (i : Int) (name surname : Option String) :
    Option User × List User :=
  match rows.find? (fun u => u.id == i) with
  | none => (none, rows)
  | some u =>
    let u' : User := ⟨u.id, name.getD u.name, surname.getD u.surname⟩
    (some u', rows.map fun v => if v.id == i then u' else v)

/-- Adapter method `UserRepository::delete_user`: `DELETE FROM users WHERE id = $1`; if
`rows_affected() == 0` the call fails with `Error::NotFound`, otherwise it
succeeds. Returns the call outcome together with the post-statement table. -/
def delete_user (rows : List User) (i : Int) : Except Error Unit × List User :=
  let rows' := rows.filter (fun u => !(u.id == i))
  let affected := rows.length - rows'.length
  if affected = 0 then (Except.error Error.NotFound, rows') else (Except.ok (), rows')

/-- Orchestrator method `UserUsecase::create_user`: wraps the repository result into a response
whose `user` field is always populated; a repository error propagates via `?`. -/
def usecase_create_user (res : Except Error User) : Except Error CreateUserResponse :=
  match res with
  | Except.error e => Except.error e
  | Except.ok u => Except.ok ⟨some ⟨u.id, u.name, u.surname⟩⟩

/-- Orchestrator method `UserUsecase::get_users`: maps each entity to a wire message and keeps the count. -/
def usecase_get_users (res : Except Error (List User × Int)) :
    Except Error GetUsersResponse :=
  match res with
  | Except.error e => Except.error e
  | Except.ok (us, count) =>
    Except.ok ⟨us.map (fun u => ⟨u.id, u.name, u.surname⟩), count⟩

/-- Orchestrator method `UserUsecase::get_user_by_id`: absence from storage becomes `Error::NotFound`;
a present record becomes a success whose `user` field carries that record. -/
def usecase_get_user_by_id (res : Except Error (Option User)) :
    Except Error GetUserByIdResponse :=
  match res with
  | Except.error e => Except.error e
  | Except.ok (some u) => Except.ok ⟨some ⟨u.id, u.name, u.surname⟩⟩
  | Except.ok none => Except.error Error.NotFound

/-- Orchestrator method `UserUsecase::get_user_by_name`: same absence escalation as by-id. -/
def usecase_get_user_by_name (res : Except Error (Option User)) :
    Except Error GetUserByNameResponse :=
  match res with
  | Except.error e => Except.error e
  | Except.ok (some u) => Except.ok ⟨some ⟨u.id, u.name, u.surname⟩⟩
  | Except.ok none => Except.error Error.NotFound

/-- Orchestrator method `UserUsecase::update_user`: absence from storage becomes `Error::NotFound`;
a present record becomes a success carrying the updated record. -/
def usecase_update_user (res : Except Error (Option User)) :
    Except Error UpdateUserResponse :=
  match res with
  | Except.error e => Except.error e
  | Except.ok (some u) => Except.ok ⟨some ⟨u.id, u.name, u.surname⟩⟩
  | Except.ok none => Except.error Error.NotFound

/-- Orchestrator method `UserUsecase::delete_user`: propagates the repository outcome; success is
the empty response. -/
def usecase_delete_user (res : Except Error Unit) : Except Error DeleteUserResponse :=
  match res with
  | Except.error e => Except.error e
  | Except.ok _ => Except.ok ⟨⟩

/-- The stream element `send_users` builds for one record:
`StreamUsersResponse { user: Some(grpc::User { .. }) }`. -/
def mkMsg (u : User) : StreamUsersResponse := ⟨some ⟨u.id, u.name, u.surname⟩⟩

/-- Observable events of the spawned export task: a `get_users_batch` call at
a given offset, a successful channel delivery of one frame, or a failed
`tx.send` (the receiver is gone). The channel item type is
`Result<StreamUsersResponse, Status>`, so a delivered frame is an
`Except Status StreamUsersResponse`. -/
inductive Ev where
  | fetch : Nat → Ev
  | sent : Except Status StreamUsersResponse → Ev
  | sendFailed : Ev
deriving DecidableEq, Repr

/-- The inner `for user in users` loop of `send_users`: each iteration sends
`Ok(res)` for the next user; `accept k` tells whether send attempt number `k`
is accepted by the channel. On the first failed send the loop breaks (the
rest of the batch is skipped). Returns the events and the next attempt index. -/
def sendBatch (accept : Nat → Bool) : List User → Nat → List Ev × Nat
  | [], k => ([], k)
  | u :: us, k =>
    if accept k then
      let p := sendBatch accept us (k + 1)
      (Ev.sent (Except.ok (mkMsg u)) :: p.1, p.2)
    else
      ([Ev.sendFailed], k + 1)

/-- The outer `loop` of the task spawned by `UserUsecase::send_users`,
as written in the source: fetch a batch at `offset`; an empty batch or a
fetch error breaks the loop; otherwise the inner send loop runs and then
`offset += BATCH_SIZE` — note that the outer loop continues even when the
inner loop broke on a failed send, exactly as the un-labeled `break` in the
source only exits the `for`. `batchF` is the repository's
`get_users_batch(offset, BATCH_SIZE)` outcome; `fuel` bounds the number of
outer iterations (chosen large enough in every theorem). -/
def exportLoop (batchF : Nat → Except Error (List User)) (accept : Nat → Bool) :
    Nat → Nat → Nat → List Ev
  | 0, _, _ => []
  | fuel + 1, offset, k =>
    match batchF offset with
    | Except.error _ => [Ev.fetch offset]
    | Except.ok [] => [Ev.fetch offset]
    | Except.ok (u :: us) =>
      let p := sendBatch accept (u :: us) k
      Ev.fetch offset :: (p.1 ++ exportLoop batchF accept fuel (offset + BATCH_SIZE) p.2)

/-- The frames actually delivered to the consumer in a trace. -/
def delivered (tr : List Ev) : List (Except Status StreamUsersResponse) :=
  tr.filterMap fun ev =>
    match ev with
    | Ev.sent x => some x
    | _ => none

/-- Whether a delivered frame is a success frame (no `Status` error inside). -/
def isOkFrame (x : Except Status StreamUsersResponse) : Bool :=
  match x with
  | Except.ok _ => true
  | Except.error _ => false

/-- The fault-free repository batch oracle over a table: every
`get_users_batch` call succeeds with the corresponding window. -/
def tableBatchF (rows : List User) (offset : Nat) : Except Error (List User) :=
  Except.ok (get_users_batch rows offset BATCH_SIZE)

/-- A consumer that accepts every delivery. -/
def acceptAll : Nat → Bool := fun _ => true

/-- A consumer that is already disconnected: every send attempt fails. -/
def rejectAll : Nat → Bool := fun _ => false

/-- Orchestrator method `UserUsecase::send_users`: spawns the detached export task and returns
`Ok(())` unconditionally. The model returns the pair (initiating call result,
trace of the spawned task). -/
def send_users (batchF : Nat → Except Error (List User)) (accept : Nat → Bool)
    (fuel : Nat) : Except Error Unit × List Ev :=
  (Except.ok (), exportLoop batchF accept fuel 0 0)

/-- The spawned export task over a concrete fault-free table, with enough
fuel to page through the whole table. -/
def send_users_task (rows : List User) (accept : Nat → Bool) : List Ev :=
  exportLoop (tableBatchF rows) accept (rows.length + 1) 0 0

/-- Facade method `UserServer::create_user`: every orchestrator error becomes `Status::internal`. -/
def server_create_user (res : Except Error CreateUserResponse) :
    Except Status CreateUserResponse :=
  match res with
  | Except.ok r => Except.ok r
  | Except.error e =>
    Except.error (Status.internal ("failed to create user: " ++ debugError e))

/-- Facade method `UserServer::get_user_by_id`: `Error::NotFound` becomes
`Status::not_found`, every other error becomes `Status::internal`. -/
def server_get_user_by_id (res : Except Error GetUserByIdResponse) :
    Except Status GetUserByIdResponse :=
  match res with
  | Except.ok r => Except.ok r
  | Except.error e =>
    let msg := "failed to retrieve user: " ++ debugError e
    Except.error (match e with
      | Error.NotFound => Status.not_found msg
      | _ => Status.internal msg)

/-- Facade method `UserServer::get_user_by_name`: same mapping as by-id. -/
def server_get_user_by_name (res : Except Error GetUserByNameResponse) :
    Except Status GetUserByNameResponse :=
  match res with
  | Except.ok r => Except.ok r
  | Except.error e =>
    let msg := "failed to retrieve user: " ++ debugError e
    Except.error (match e with
      | Error.NotFound => Status.not_found msg
      | _ => Status.internal msg)

/-- Facade method `UserServer::update_user`: every orchestrator error becomes
`Status::internal` (there is no `NotFound` arm in the source). -/
def server_update_user (res : Except Error UpdateUserResponse) :
    Except Status UpdateUserResponse :=
  match res with
  | Except.ok r => Except.ok r
  | Except.error e =>
    Except.error (Status.internal ("failed to update user: " ++ debugError e))

/-- Facade method `UserServer::get_users`: every orchestrator error becomes `Status::internal`. -/
def server_get_users (res : Except Error GetUsersResponse) :
    Except Status GetUsersResponse :=
  match res with
  | Except.ok r => Except.ok r
  | Except.error e =>
    Except.error (Status.internal ("failed to retrieve users: " ++ debugError e))

/-- Facade method `UserServer::delete_user`: every orchestrator error becomes
`Status::internal` (there is no `NotFound` arm in the source). -/
def server_delete_user (res : Except Error DeleteUserResponse) :
    Except Status DeleteUserResponse :=
  match res with
  | Except.ok r => Except.ok r
  | Except.error e =>
    Except.error (Status.internal ("failed to delete user: " ++ debugError e))

/-- Facade method `UserServer::stream_users`: the channel is created, `send_users` is
invoked, and only its (initiating-call) error would become
`Status::internal`; on success the receiver stream is handed to the
transport (modelled as `Unit`). -/
def server_stream_users (res : Except Error Unit) : Except Status Unit :=
  match res with
  | Except.ok _ => Except.ok ()
  | Except.error e =>
    Except.error (Status.internal ("failed to start streaming users: " ++ debugError e))

/-- Status code of a facade outcome's error, if any. -/
def errStatusCode {α : Type} (res : Except Status α) : Option StatusCode :=
  match res with
  | Except.error s => some s.code
  | Except.ok _ => none

/-- Concrete record used in witnesses. -/
def userAda : User := ⟨1, "Ada", "Lovelace"⟩

/-- Concrete record used in witnesses. -/
def userBob : User := ⟨2, "Bob", "Babbage"⟩

/-- A small concrete table (id-ordered) used in witnesses. -/
def rowsW : List User := [userAda, userBob]

/-- A concrete table of 101 records (ids 1..101), so the export needs two
non-empty batches at `BATCH_SIZE = 100`. -/
def rows101 : List User :=
  (List.range 101).map (fun i => ⟨Int.ofNat i + 1, "n", "s"⟩)

/-- A batch oracle whose very first `get_users_batch` call fails with a
storage fault. -/
def failAt0BatchF : Nat → Except Error (List User) :=
  fun o => if o = 0 then Except.error (Error.Internal "connection reset") else Except.ok []

/-- C2 counterexample: at the facade, an orchestrator `NotFound` failure of
UpdateUser and of DeleteUser is mapped to the generic internal-error status,
not to the not-found status the claim requires. -/
theorem c2_counterexample :
    errStatusCode (server_update_user (Except.error Error.NotFound)) = some StatusCode.internal ∧
    errStatusCode (server_delete_user (Except.error Error.NotFound)) = some StatusCode.internal ∧
    StatusCode.internal ≠ StatusCode.notFound :=
  ⟨rfl, rfl, by decide⟩

/-- C2 (amended): the facade maps an orchestrator `NotFound` to the
not-found status for GetUserById and GetUserByName only; for UpdateUser and
DeleteUser every orchestrator failure, `NotFound` included, is mapped to the
generic internal-error status, and every other internal failure is mapped to
the internal-error status for every request type. -/
theorem c2_facade_status_mapping :
    ∀ (c : String) (e : Error),
      errStatusCode (server_get_user_by_id (Except.error Error.NotFound))
        = some StatusCode.notFound ∧
      errStatusCode (server_get_user_by_id (Except.error (Error.Internal c)))
        = some StatusCode.internal ∧
      errStatusCode (server_get_user_by_name (Except.error Error.NotFound))
        = some StatusCode.notFound ∧
      errStatusCode (server_get_user_by_name (Except.error (Error.Internal c)))
        = some StatusCode.internal ∧
      errStatusCode (server_update_user (Except.error e)) = some StatusCode.internal ∧
      errStatusCode (server_delete_user (Except.error e)) = some StatusCode.internal ∧
      errStatusCode (server_create_user (Except.error e)) = some StatusCode.internal ∧
      errStatusCode (server_get_users (Except.error e)) = some StatusCode.internal ∧
      errStatusCode (server_stream_users (Except.error e)) = some StatusCode.internal := by
  intro c e
  exact ⟨rfl, rfl, rfl, rfl, rfl, rfl, rfl, rfl, rfl⟩

/-- C6: at the orchestrator, a storage absence (`Ok(None)`) for the by-id
lookup, the by-name lookup and update is escalated to `Error::NotFound`, and
a present record (`Ok(Some(u))`) yields a success carrying exactly that
record's id, name and surname. -/
theorem c6_orchestrator_absence_semantics :
    ∀ u : User,
      usecase_get_user_by_id (Except.ok none) = Except.error Error.NotFound ∧
      usecase_get_user_by_id (Except.ok (some u))
        = Except.ok ⟨some ⟨u.id, u.name, u.surname⟩⟩ ∧
      usecase_get_user_by_name (Except.ok none) = Except.error Error.NotFound ∧
      usecase_get_user_by_name (Except.ok (some u))
        = Except.ok ⟨some ⟨u.id, u.name, u.surname⟩⟩ ∧
      usecase_update_user (Except.ok none) = Except.error Error.NotFound ∧
      usecase_update_user (Except.ok (some u))
        = Except.ok ⟨some ⟨u.id, u.name, u.surname⟩⟩ := by
  intro u
  exact ⟨rfl, rfl, rfl, rfl, rfl, rfl⟩

/-- C9: every successful orchestrator response for CreateUser, GetUserById,
GetUserByName and UpdateUser has its optional `user` field populated; a
success with an absent user payload is impossible. -/
theorem c9_success_user_populated :
    ∀ (rc : Except Error User) (ri rn ru : Except Error (Option User))
      (qc : CreateUserResponse) (qi : GetUserByIdResponse)
      (qn : GetUserByNameResponse) (qu : UpdateUserResponse),
      (usecase_create_user rc = Except.ok qc → qc.user.isSome = true) ∧
      (usecase_get_user_by_id ri = Except.ok qi → qi.user.isSome = true) ∧
      (usecase_get_user_by_name rn = Except.ok qn → qn.user.isSome = true) ∧
      (usecase_update_user ru = Except.ok qu → qu.user.isSome = true) := by
  intro rc ri rn ru qc qi qn qu
  refine ⟨fun h => ?_, fun h => ?_, fun h => ?_, fun h => ?_⟩
  · cases rc with
    | error e => simp [usecase_create_user] at h
    | ok u => simp [usecase_create_user] at h; simp [← h]
  · cases ri with
    | error e => simp [usecase_get_user_by_id] at h
    | ok o =>
      cases o with
      | none => simp [usecase_get_user_by_id] at h
      | some u => simp [usecase_get_user_by_id] at h; simp [← h]
  · cases rn with
    | error e => simp [usecase_get_user_by_name] at h
    | ok o =>
      cases o with
      | none => simp [usecase_get_user_by_name] at h
      | some u => simp [usecase_get_user_by_name] at h; simp [← h]
  · cases ru with
    | error e => simp [usecase_update_user] at h
    | ok o =>
      cases o with
      | none => simp [usecase_update_user] at h
      | some u => simp [usecase_update_user] at h; simp [← h]

/-- C9 witness: the populated-field property instantiated at concrete inputs. -/
theorem c9_witness :
    (CreateUserResponse.mk (some ⟨1, "Ada", "Lovelace"⟩)).user.isSome = true ∧
    (GetUserByIdResponse.mk (some ⟨1, "Ada", "Lovelace"⟩)).user.isSome = true ∧
    (GetUserByNameResponse.mk (some ⟨1, "Ada", "Lovelace"⟩)).user.isSome = true ∧
    (UpdateUserResponse.mk (some ⟨1, "Ada", "Lovelace"⟩)).user.isSome = true := by
  obtain ⟨h1, h2, h3, h4⟩ :=
    c9_success_user_populated (Except.ok userAda) (Except.ok (some userAda))
      (Except.ok (some userAda)) (Except.ok (some userAda))
      ⟨some ⟨1, "Ada", "Lovelace"⟩⟩ ⟨some ⟨1, "Ada", "Lovelace"⟩⟩
      ⟨some ⟨1, "Ada", "Lovelace"⟩⟩ ⟨some ⟨1, "Ada", "Lovelace"⟩⟩
  exact ⟨h1 rfl, h2 rfl, h3 rfl, h4 rfl⟩

/-- C10: initiating the streaming export never fails: for every repository
batch oracle, every consumer behavior and every fuel bound, `send_users`
returns `Ok(())`, so the facade's internal-error branch for StreamUsers is
unreachable and the call hands the stream over successfully. -/
theorem c10_stream_init_never_fails :
    ∀ (batchF : Nat → Except Error (List User)) (accept : Nat → Bool) (fuel : Nat),
      (send_users batchF accept fuel).1 = Except.ok () ∧
      server_stream_users (send_users batchF accept fuel).1 = Except.ok () := by
  intro batchF accept fuel
  exact ⟨rfl, rfl⟩

/-- On a table with unique ascending ids, the lookup of a member's id finds
exactly that member. -/
theorem find_eq_of_sortedIds {rows : List User} {u : User}
    (hs : SortedIds rows) (hm : u ∈ rows) :
    rows.find? (fun v => v.id == u.id) = some u := by
  induction rows with
  | nil => cases hm
  | cons v tl ih =>
    rcases List.pairwise_cons.mp hs with ⟨hv, htl⟩
    rcases List.mem_cons.mp hm with h | h
    · subst h
      exact List.find?_cons_of_pos _ (by simp)
    · have hlt := hv u h
      have hb : (v.id == u.id) = false := by
        simp only [beq_eq_false_iff_ne, ne_eq]
        intro he
        rw [he] at hlt
        exact lt_irrefl _ hlt
      simp only [List.find?, hb]
      exact ih htl h

/-- C5: for every stored user (N, S), a surname-only update yields (N, S'),
a name-only update yields (N', S), and an update providing neither field
yields (N, S) unchanged; the updated record is also what the table then
stores. An omitted field always retains its previously stored value. -/
theorem c5_partial_update_preserves_fields (rows : List User) (u : User)
    (hs : SortedIds rows) (hm : u ∈ rows) (n s : String) :
    (update_user rows u.id none (some s)).1 = some ⟨u.id, u.name, s⟩ ∧
    (update_user rows u.id (some n) none).1 = some ⟨u.id, n, u.surname⟩ ∧
    (update_user rows u.id none none).1 = some u ∧
    (⟨u.id, u.name, s⟩ : User) ∈ (update_user rows u.id none (some s)).2 ∧
    (⟨u.id, n, u.surname⟩ : User) ∈ (update_user rows u.id (some n) none).2 := by
  have hf := find_eq_of_sortedIds hs hm
  refine ⟨?_, ?_, ?_, ?_, ?_⟩
  · simp [update_user, hf]
  · simp [update_user, hf]
  · simp [update_user, hf]
  · simp only [update_user, hf]
    exact List.mem_map.mpr ⟨u, hm, by simp⟩
  · simp only [update_user, hf]
    exact List.mem_map.mpr ⟨u, hm, by simp⟩

/-- C5 witness: the update behavior at a concrete two-row table. -/
theorem c5_witness :
    SortedIds rowsW ∧ userAda ∈ rowsW ∧
    (update_user rowsW userAda.id none (some "L.")).1
      = some ⟨userAda.id, userAda.name, "L."⟩ ∧
    (update_user rowsW userAda.id (some "X") none).1
      = some ⟨userAda.id, "X", userAda.surname⟩ ∧
    (update_user rowsW userAda.id none none).1 = some userAda := by
  have h := c5_partial_update_preserves_fields rowsW userAda (by decide) (by decide) "X" "L."
  exact ⟨by decide, by decide, h.1, h.2.1, h.2.2.1⟩

/-- Deleting an id no row has leaves the filtered table equal to the table. -/
theorem filter_ne_eq_self {rows : List User} {i : Int}
    (h : ∀ u ∈ rows, u.id ≠ i) :
    rows.filter (fun u => !(u.id == i)) = rows :=
  List.filter_eq_self.mpr (by intro a ha; simpa using h a ha)

/-- On a table with unique ascending ids, filtering out a member's id removes
exactly one row. -/
theorem filter_out_one_length {rows : List User} {u : User}
    (hs : SortedIds rows) (hm : u ∈ rows) :
    (rows.filter (fun v => !(v.id == u.id))).length + 1 = rows.length := by
  induction rows with
  | nil => cases hm
  | cons v tl ih =>
    rcases List.pairwise_cons.mp hs with ⟨hv, htl⟩
    rcases List.mem_cons.mp hm with h | h
    · subst h
      have htlne : ∀ w ∈ tl, w.id ≠ u.id := by
        intro w hw he
        have := hv w hw
        rw [he] at this
        exact lt_irrefl _ this
      simp [List.filter_cons, filter_ne_eq_self htlne]
    · have hvne : v.id ≠ u.id := ne_of_lt (hv u h)
      have := ih htl h
      simp only [List.filter_cons, List.length_cons]
      rw [if_pos (by simpa using hvne)]
      simp only [List.length_cons]
      omega

/-- C7: deleting an id with no matching row fails with `NotFound` and leaves
the table unchanged; deleting an id that exists succeeds and removes exactly
one row, namely the one with that id. -/
theorem c7_delete_semantics (rows : List User) (i : Int) (hs : SortedIds rows) :
    ((∀ u ∈ rows, u.id ≠ i) → delete_user rows i = (Except.error Error.NotFound, rows)) ∧
    (∀ u, u ∈ rows → u.id = i →
      (delete_user rows i).1 = Except.ok () ∧
      ((delete_user rows i).2).length + 1 = rows.length ∧
      ∀ v, (v ∈ (delete_user rows i).2 ↔ (v ∈ rows ∧ v.id ≠ i))) := by
  constructor
  · intro h
    simp [delete_user, filter_ne_eq_self h]
  · intro u hm hi
    subst hi
    have hlen := filter_out_one_length hs hm
    have hne : ¬(rows.length - (rows.filter fun v => !(v.id == u.id)).length = 0) := by
      omega
    refine ⟨?_, ?_, ?_⟩
    · simp [delete_user, hne]
    · simp only [delete_user]
      rw [if_neg hne]
      exact hlen
    · intro v
      simp only [delete_user]
      rw [if_neg hne]
      simp [List.mem_filter]

/-- C7 witness: delete behavior at a concrete two-row table, for an absent
id and for a present one. -/
theorem c7_witness :
    SortedIds rowsW ∧
    delete_user rowsW 99 = (Except.error Error.NotFound, rowsW) ∧
    (delete_user rowsW userAda.id).1 = Except.ok () ∧
    ((delete_user rowsW userAda.id).2).length + 1 = rowsW.length := by
  have h99 := c7_delete_semantics rowsW 99 (by decide)
  have h1 := c7_delete_semantics rowsW userAda.id (by decide)
  obtain ⟨ha, hb, _⟩ := h1.2 userAda (by decide) rfl
  exact ⟨by decide, h99.1 (by decide), ha, hb⟩

/-- C8: `get_users_batch` returns the window of at most `limit` records of
the id-ordered table starting at `offset` (so the window concatenated with
the rest of the table past the window is exactly the table past the offset),
the window is still in ascending-id order, and an offset at or beyond the
record count yields the empty sequence, never an error. -/
theorem c8_batch_window (rows : List User) (offset limit : Nat) (hs : SortedIds rows) :
    get_users_batch rows offset limit ++ rows.drop (offset + limit) = rows.drop offset ∧
    (get_users_batch rows offset limit).length ≤ limit ∧
    (rows.length ≤ offset → get_users_batch rows offset limit = []) ∧
    SortedIds (get_users_batch rows offset limit) := by
  refine ⟨?_, ?_, ?_, ?_⟩
  · have h1 : (rows.drop offset).drop limit = rows.drop (offset + limit) :=
      List.drop_drop limit offset rows
    rw [get_users_batch, ← h1, List.take_append_drop]
  · simp only [get_users_batch, List.length_take]
    omega
  · intro h
    simp [get_users_batch, List.drop_eq_nil_of_le h]
  · have hsub : List.Sublist (get_users_batch rows offset limit) rows :=
      (List.take_sublist _ _).trans (List.drop_sublist _ _)
    exact List.Pairwise.sublist hsub hs

/-- C8 witness: the window characterization at a concrete table, including
an offset beyond the end. -/
theorem c8_witness :
    SortedIds rowsW ∧
    get_users_batch rowsW 1 1 ++ rowsW.drop 2 = rowsW.drop 1 ∧
    (get_users_batch rowsW 1 1).length ≤ 1 ∧
    get_users_batch rowsW 5 3 = [] := by
  have h := c8_batch_window rowsW 1 1 (by decide)
  have h5 := c8_batch_window rowsW 5 3 (by decide)
  exact ⟨by decide, h.1, h.2.1, h5.2.2.1 (by decide)⟩

/-- Identifier carried by a delivered frame (0 for an error frame or an
absent user field; only used on frames built by `mkMsg`, which always carry
the user). -/
def frameId (x : Except Status StreamUsersResponse) : Int :=
  match x with
  | Except.ok r =>
    match r.user with
    | some gu => gu.id
    | none => 0
  | Except.error _ => 0

/-- A batch oracle that serves one record at offset 0 and then fails with a
storage fault on the next batch call. -/
def failAt100BatchF : Nat → Except Error (List User) :=
  fun o => if o = 0 then Except.ok [userAda] else Except.error (Error.Internal "connection reset")

/-- With a consumer that accepts everything, the inner send loop delivers one
success frame per record of the batch, in batch order. -/
theorem sendBatch_acceptAll (us : List User) (k : Nat) :
    sendBatch acceptAll us k
      = (us.map fun u => Ev.sent (Except.ok (mkMsg u)), k + us.length) := by
  induction us generalizing k with
  | nil => simp [sendBatch]
  | cons u tl ih =>
    simp only [sendBatch, acceptAll, if_true, ih, List.map_cons, List.length_cons,
      Prod.mk.injEq]
    refine ⟨?_, ?_⟩
    · trivial
    · omega

/-- The function `delivered` distributes over trace concatenation. -/
theorem delivered_append (a b : List Ev) :
    delivered (a ++ b) = delivered a ++ delivered b := by
  simp [delivered, List.filterMap_append]

/-- A fetch event delivers nothing. -/
theorem delivered_fetch_cons (o : Nat) (tr : List Ev) :
    delivered (Ev.fetch o :: tr) = delivered tr := by
  simp [delivered, List.filterMap_cons]

/-- The frames delivered by a run of successful sends are their payloads. -/
theorem delivered_sent_map (f : User → Except Status StreamUsersResponse)
    (us : List User) :
    delivered (us.map fun u => Ev.sent (f u)) = us.map f := by
  induction us with
  | nil => rfl
  | cons u tl ih => simp [delivered, List.filterMap_cons] at ih ⊢; exact ih

/-- Fault-free, always-accepting run: from any offset, the export loop
delivers exactly the table rows past that offset, in order, given enough
fuel. -/
theorem exportLoop_complete (rows : List User) :
    ∀ (fuel offset k : Nat), rows.length < offset + fuel * BATCH_SIZE →
      delivered (exportLoop (tableBatchF rows) acceptAll fuel offset k)
        = (rows.drop offset).map (fun u => Except.ok (mkMsg u)) := by
  intro fuel
  induction fuel with
  | zero =>
    intro offset k h
    simp only [Nat.zero_mul, Nat.add_zero] at h
    rw [List.drop_eq_nil_of_le (le_of_lt h)]
    simp [exportLoop, delivered]
  | succ fuel ih =>
    intro offset k h
    rcases hb : get_users_batch rows offset BATCH_SIZE with _ | ⟨u, us⟩
    · have hdrop : rows.drop offset = [] := by
        rcases List.take_eq_nil_iff.mp hb with h100 | hnil
        · exact absurd h100 (by simp [BATCH_SIZE])
        · exact hnil
      simp [exportLoop, tableBatchF, hb, delivered, hdrop]
    · have hrec := ih (offset + BATCH_SIZE) ((sendBatch acceptAll (u :: us) k).2)
        (by simp only [BATCH_SIZE] at h ⊢; omega)
      have hsplit : rows.drop offset = (u :: us) ++ rows.drop (offset + BATCH_SIZE) := by
        have h1 : (rows.drop offset).drop BATCH_SIZE = rows.drop (offset + BATCH_SIZE) :=
          List.drop_drop BATCH_SIZE offset rows
        calc rows.drop offset
            = (rows.drop offset).take BATCH_SIZE ++ (rows.drop offset).drop BATCH_SIZE :=
              (List.take_append_drop _ _).symm
          _ = (u :: us) ++ rows.drop (offset + BATCH_SIZE) := by
              rw [h1]
              exact congrArg (fun l => l ++ rows.drop (offset + BATCH_SIZE)) hb
      simp only [exportLoop, tableBatchF, hb]
      rw [sendBatch_acceptAll] at hrec ⊢
      rw [delivered_fetch_cons, delivered_append, delivered_sent_map, hrec, hsplit,
        List.map_append]

/-- C4: for every table state, with no storage fault and a consumer that
accepts every message, the streaming export delivers exactly one message per
record, in the table's ascending-identifier order (hence no duplicates and no
omissions), for any record count including more than one batch. -/
theorem c4_stream_delivers_all (rows : List User) (hs : SortedIds rows) :
    delivered (send_users_task rows acceptAll)
      = rows.map (fun u => Except.ok (mkMsg u)) ∧
    List.Pairwise (fun a b => frameId a < frameId b)
      (delivered (send_users_task rows acceptAll)) := by
  have hmain : delivered (send_users_task rows acceptAll)
      = rows.map (fun u => Except.ok (mkMsg u)) := by
    have h := exportLoop_complete rows (rows.length + 1) 0 0
      (by simp only [BATCH_SIZE]; omega)
    rw [send_users_task] at *
    rw [h, List.drop_zero]
  refine ⟨hmain, ?_⟩
  rw [hmain, List.pairwise_map]
  refine List.Pairwise.imp ?_ hs
  intro a b hab
  simpa [frameId, mkMsg] using hab

/-- C4 witness: the 101-record table (two batches) delivers all 101 records. -/
theorem c4_witness :
    SortedIds rows101 ∧
    delivered (send_users_task rows101 acceptAll)
      = rows101.map (fun u => Except.ok (mkMsg u)) := by
  have h := c4_stream_delivers_all rows101 (by decide)
  exact ⟨by decide, h.1⟩

/-- Only success frames ever reach the channel from the inner send loop. -/
theorem delivered_sendBatch_ok (accept : Nat → Bool) (us : List User) (k : Nat) :
    (delivered (sendBatch accept us k).1).all isOkFrame = true := by
  induction us generalizing k with
  | nil => rfl
  | cons u tl ih =>
    by_cases hk : accept k
    · simp [sendBatch, hk, delivered, List.filterMap_cons, isOkFrame]
      have := ih (k + 1)
      simpa [delivered] using this
    · simp [sendBatch, hk, delivered, List.filterMap_cons]

/-- Only success frames are ever delivered by the export task, whatever the
batch oracle and the consumer do. -/
theorem delivered_exportLoop_ok (batchF : Nat → Except Error (List User))
    (accept : Nat → Bool) :
    ∀ (fuel offset k : Nat),
      (delivered (exportLoop batchF accept fuel offset k)).all isOkFrame = true := by
  intro fuel
  induction fuel with
  | zero => intro offset k; rfl
  | succ fuel ih =>
    intro offset k
    rcases hb : batchF offset with e | us
    · simp [exportLoop, hb, delivered, List.filterMap_cons]
    · cases us with
      | nil => simp [exportLoop, hb, delivered, List.filterMap_cons]
      | cons u tl =>
        simp only [exportLoop, hb]
        rw [delivered_fetch_cons, delivered_append, List.all_append]
        rw [delivered_sendBatch_ok, ih]
        rfl

/-- C3 (amended): if a `getBatch` call fails during the export, the task
stops immediately — the failing fetch is its last action, with no further
fetches and no further sends — and the failure is only logged, never
delivered to the consumer: every frame the stream ever carries is a success
frame, so the stream simply closes, and already-delivered messages stand. -/
theorem c3_storage_fault_stops_silently
    (batchF : Nat → Except Error (List User)) (accept : Nat → Bool)
    (fuel offset k : Nat) (e : Error) (h : batchF offset = Except.error e) :
    exportLoop batchF accept (fuel + 1) offset k = [Ev.fetch offset] ∧
    ∀ fuel' offset' k',
      (delivered (exportLoop batchF accept fuel' offset' k')).all isOkFrame = true := by
  constructor
  · simp [exportLoop, h]
  · intro fuel' offset' k'
    exact delivered_exportLoop_ok batchF accept fuel' offset' k'

/-- C3 witness: a concrete oracle failing at its first call stops the task
at once, with only success frames ever delivered. -/
theorem c3_witness :
    failAt0BatchF 0 = Except.error (Error.Internal "connection reset") ∧
    exportLoop failAt0BatchF acceptAll 1 0 0 = [Ev.fetch 0] :=
  ⟨rfl, (c3_storage_fault_stops_silently failAt0BatchF acceptAll 0 0 0
    (Error.Internal "connection reset") rfl).1⟩

/-- C3 counterexample: a storage fault after one delivered record is not
surfaced to the consumer — the delivered frames of that run are exactly the
one success frame and contain no error frame, so the abnormal end is
indistinguishable from a clean close. -/
theorem c3_counterexample :
    delivered (exportLoop failAt100BatchF acceptAll 2 0 0)
      = [Except.ok (mkMsg userAda)] ∧
    (delivered (exportLoop failAt100BatchF acceptAll 2 0 0)).all isOkFrame = true :=
  ⟨rfl, rfl⟩

/-- C1: evaluating the export task at a 101-record table with a consumer
that is already disconnected (every send fails): after the failed send of
the first batch, the task still calls `get_users_batch` at offsets 100 and
200 and attempts (and fails) another send, because the `break` in the source
only exits the inner `for` loop. The claim's required behavior — no further
`getBatch` calls and no further sends after the failed send — does not hold. -/
theorem c1_disconnect_keeps_fetching :
    SortedIds rows101 ∧
    send_users_task rows101 rejectAll
      = [Ev.fetch 0, Ev.sendFailed, Ev.fetch 100, Ev.sendFailed, Ev.fetch 200] :=
  ⟨by decide, by rfl⟩
